import Mathlib

/-
Shallow embedding of the frida-gum ELF module introspector
(src/gum/backend-elf/gumelfmodule.c, together with the declarations in
src/gum/backend-elf/gumelfmodule.h).

Modelling conventions:
  * Machine integers are `Nat` with explicit reduction modulo 2^64 (GumAddress,
    pointers, Elf64 words), 2^32 (guint, guint32, Elf64_Word) and 2^16
    (GElf_Half, st_shndx) at the points where the C code's types force it.
  * The source is compiled for a 64-bit host, hence the `sizeof (gpointer) == 4`
    branches of the C code are dead and the Elf64 branches are embedded
    (Elf64_Dyn is 16 bytes, hash-table words are 4 bytes).
  * The mapped file / live target memory behind the libelf handle is modelled
    by abstract typed read functions carried by the module value: `readDyn`
    (an Elf64_Dyn load), `readSym` (an Elf64_Sym load), `readU32` (a guint32
    load), `readStr` (a NUL-terminated string load), and `strptr`
    (libelf's elf_strptr on a section's linked string table).  Each is a total
    function from a runtime address, exactly as the C dereferences are.
  * C callbacks mutate a caller context and return a gboolean; they are
    embedded as state-passing functions `σ → record → σ × Bool`.  The
    enumeration skeleton `runEnum` additionally returns the list of records on
    which the callback was invoked, which is the observable "delivered
    records" sequence of an enumeration run.
  * The enumeration entry points are `void` in C and signal nothing; missing
    structures yield an empty delivered list with the state unchanged.
-/

def UINT64_MOD : Nat := 18446744073709551616

def UINT32_MOD : Nat := 4294967296

def UINT16_MOD : Nat := 65536

/-- Reduction of a pointer-sized computation modulo the 64-bit address width. -/
def addr64 (n : Nat) : Nat := n % UINT64_MOD

/-- 64-bit unsigned addition (GumAddress arithmetic). -/
def add64 (a b : Nat) : Nat := (a + b) % UINT64_MOD

/-- 64-bit unsigned subtraction with wraparound (GumAddress arithmetic). -/
def sub64 (a b : Nat) : Nat := (a + (UINT64_MOD - b % UINT64_MOD)) % UINT64_MOD

/-- guint decrement (`ctx->pending--` on a 32-bit unsigned counter). -/
def decU32 (n : Nat) : Nat := (n + (UINT32_MOD - 1)) % UINT32_MOD

def PT_LOAD : Nat := 1

def PT_DYNAMIC : Nat := 2

def PT_PHDR : Nat := 6

def DT_NEEDED : Int := 1

def DT_HASH : Int := 4

def DT_STRTAB : Int := 5

def DT_SYMTAB : Int := 6

def DT_SYMENT : Int := 11

def SHT_SYMTAB : Nat := 2

def SHN_UNDEF : Nat := 0

def STT_OBJECT : Nat := 1

def STT_FUNC : Nat := 2

def STB_GLOBAL : Nat := 1

def STB_WEAK : Nat := 2

def ET_REL : Nat := 1

def ET_EXEC : Nat := 2

def ET_DYN : Nat := 3

/-- GELF_ST_TYPE: low nibble of st_info. -/
def GELF_ST_TYPE (info : Nat) : Nat := info % 16

/-- GELF_ST_BIND: high nibble of st_info. -/
def GELF_ST_BIND (info : Nat) : Nat := info / 16

/-- The program-header fields the module reads (GElf_Phdr). -/
structure GElfPhdr where
  p_type : Nat
  p_offset : Nat
  p_vaddr : Nat
  p_memsz : Nat
deriving DecidableEq, Repr

/-- An Elf64_Sym as loaded from memory. -/
structure ElfSym where
  st_name : Nat
  st_value : Nat
  st_info : Nat
  st_shndx : Nat
deriving DecidableEq, Repr

/-- A section header together with its data accessor: `sh_type`, `sh_size`,
`sh_entsize`, `sh_link` are the GElf_Shdr fields the module reads, and
`getSym i` models `gelf_getsym (elf_getdata (scn, NULL), i, &sym)` on that
section's data. -/
structure GElfShdr where
  sh_type : Nat
  sh_size : Nat
  sh_entsize : Nat
  sh_link : Nat
  getSym : Nat → ElfSym

/-- GumElfDynamicEntryDetails: a dynamic-section tag/value pair.  The tag
is a GElf_Sxword (signed), the value a GElf_Xword. -/
structure GumElfDynamicEntryDetails where
  type : Int
  value : Nat
deriving DecidableEq, Repr

/-- GumElfSymbolDetails: the symbol record shared by both symbol paths. -/
structure GumElfSymbolDetails where
  name : String
  address : Nat
  type : Nat
  bind : Nat
  section_header_index : Nat
deriving DecidableEq, Repr

/-- GumElfDependencyDetails: a dependency record. -/
structure GumElfDependencyDetails where
  name : String
deriving DecidableEq, Repr

/-- GumExportType: GUM_EXPORT_FUNCTION / GUM_EXPORT_VARIABLE. -/
inductive GumExportType where
  | GUM_EXPORT_FUNCTION
  | GUM_EXPORT_VARIABLE
deriving DecidableEq, Repr

/-- GumExportDetails as filled in by gum_emit_elf_export. -/
structure GumExportDetails where
  type : GumExportType
  name : String
  address : Nat
deriving DecidableEq, Repr

/-- GumImportDetails as filled in by gum_emit_elf_import. -/
structure GumImportDetails where
  type : GumExportType
  name : String
  module : Option String
  address : Nat
deriving DecidableEq, Repr

/-- GumElfModule: the fields of the C struct the enumerations read
(base_address, preferred_address, the parsed program/section headers), plus
the abstract memory reads standing for the mapped file / target memory. -/
structure GumElfModule where
  base_address : Nat
  preferred_address : Nat
  phdrs : List GElfPhdr
  shdrs : List GElfShdr
  readDyn : Nat → GumElfDynamicEntryDetails
  readSym : Nat → ElfSym
  readU32 : Nat → Nat
  readStr : Nat → String
  strptr : Nat → Nat → String

/-- The input to construction: whether open+mmap succeeded, whether
elf_memory parsed the bytes, and the parsed content (ELF header object type,
program headers, section headers, memory reads). -/
structure ElfFile where
  openOk : Bool
  parseOk : Bool
  e_type : Nat
  phdrs : List GElfPhdr
  shdrs : List GElfShdr
  readDyn : Nat → GumElfDynamicEntryDetails
  readSym : Nat → ElfSym
  readU32 : Nat → Nat
  readStr : Nat → String
  strptr : Nat → Nat → String

/-- gum_elf_module_resolve_virtual_address:
`self->base_address + (address - self->preferred_address)` on guint64. -/
def gum_elf_module_resolve_virtual_address (m : GumElfModule) (address : Nat) : Nat :=
  add64 m.base_address (sub64 address m.preferred_address)

/-- gum_elf_module_compute_preferred_address: scan the program headers in
order and return the vaddr of the first one whose file offset is zero
(the C checks only `phdr.p_offset == 0`); 0 when no header qualifies. -/
def gum_elf_module_compute_preferred_address : List GElfPhdr → Nat
  | [] => 0
  | phdr :: rest =>
      if phdr.p_offset = 0 then phdr.p_vaddr
      else gum_elf_module_compute_preferred_address rest

/-- gum_elf_module_new_from_memory together with gum_elf_module_constructed:
fail (returning NULL) when the file cannot be opened/mapped, when elf_memory
cannot parse it, or when the ELF header's e_type is neither ET_EXEC nor
ET_DYN; otherwise produce the module with its preferred address computed. -/
def gum_elf_module_new_from_memory (f : ElfFile) (base_address : Nat) :
    Option GumElfModule :=
  if f.openOk = false then none
  else if f.parseOk = false then none
  else if f.e_type % UINT16_MOD ≠ ET_EXEC ∧ f.e_type % UINT16_MOD ≠ ET_DYN then none
  else some
    { base_address := base_address % UINT64_MOD
    , preferred_address := gum_elf_module_compute_preferred_address f.phdrs
    , phdrs := f.phdrs
    , shdrs := f.shdrs
    , readDyn := f.readDyn
    , readSym := f.readSym
    , readU32 := f.readU32
    , readStr := f.readStr
    , strptr := f.strptr }

/-- The shared enumeration skeleton: invoke the state-passing callback on each
record in order, stopping as soon as it returns false (gboolean FALSE).
Returns the final callback state and the list of records the callback was
invoked on (the delivered records). -/
def runEnum {σ α : Type} (f : σ → α → σ × Bool) : σ → List α → σ × List α
  | s, [] => (s, [])
  | s, x :: xs =>
      match f s x with
      | (s', true) =>
          let r := runEnum f s' xs
          (r.1, x :: r.2)
      | (s', false) => (s', [x])

/-- gum_elf_module_find_dynamic_range: linear scan of the program headers for
the first PT_DYNAMIC one, returning its (p_vaddr, p_memsz). -/
def gum_elf_module_find_dynamic_range (m : GumElfModule) : Option (Nat × Nat) :=
  (m.phdrs.find? (fun phdr => phdr.p_type == PT_DYNAMIC)).map
    (fun phdr => (phdr.p_vaddr, phdr.p_memsz))

/-- The sequence of Elf64_Dyn records the dynamic-entry enumeration walks:
`entry_count = dynamic.size / sizeof (Elf64_Dyn)` (truncated to guint), each
entry loaded at the translated start of the dynamic range plus 16 bytes per
index.  Empty when there is no dynamic segment. -/
def dynEntryList (m : GumElfModule) : List GumElfDynamicEntryDetails :=
  match gum_elf_module_find_dynamic_range m with
  | none => []
  | some (base, size) =>
      (List.range ((size / 16) % UINT32_MOD)).map
        (fun i => m.readDyn (addr64 (gum_elf_module_resolve_virtual_address m base + 16 * i)))

/-- gum_elf_module_enumerate_dynamic_entries: return silently when there is no
dynamic segment, otherwise walk the tag/value pairs with stop semantics. -/
def gum_elf_module_enumerate_dynamic_entries {σ : Type} (m : GumElfModule)
    (f : σ → GumElfDynamicEntryDetails → σ × Bool) (s : σ) :
    σ × List GumElfDynamicEntryDetails :=
  match gum_elf_module_find_dynamic_range m with
  | none => (s, [])
  | some (base, size) =>
      runEnum f s ((List.range ((size / 16) % UINT32_MOD)).map
        (fun i => m.readDyn (addr64 (gum_elf_module_resolve_virtual_address m base + 16 * i))))

/-- GumElfStoreSymtabParamsContext. -/
structure GumElfStoreSymtabParamsContext where
  pending : Nat
  entries : Nat
  entry_size : Nat
  entry_count : Nat
  strtab : Nat
deriving DecidableEq, Repr

/-- gum_store_symtab_params: capture DT_SYMTAB / DT_SYMENT / DT_HASH (whose
pointed-to second guint32 is nchain, the entry count) / DT_STRTAB, decrement
the pending counter for each, and continue while pending is nonzero. -/
def gum_store_symtab_params (m : GumElfModule)
    (ctx : GumElfStoreSymtabParamsContext) (d : GumElfDynamicEntryDetails) :
    GumElfStoreSymtabParamsContext × Bool :=
  let ctx' :=
    if d.type = DT_SYMTAB then
      { ctx with entries := gum_elf_module_resolve_virtual_address m d.value
               , pending := decU32 ctx.pending }
    else if d.type = DT_SYMENT then
      { ctx with entry_size := d.value
               , pending := decU32 ctx.pending }
    else if d.type = DT_HASH then
      { ctx with entry_count :=
            m.readU32 (addr64 (gum_elf_module_resolve_virtual_address m d.value + 4)) % UINT32_MOD
               , pending := decU32 ctx.pending }
    else if d.type = DT_STRTAB then
      { ctx with strtab := gum_elf_module_resolve_virtual_address m d.value
               , pending := decU32 ctx.pending }
    else ctx
  (ctx', ctx'.pending != 0)

/-- The context as initialized by gum_elf_module_enumerate_dynamic_symbols:
pending = 4, all captured values NULL/0. -/
def initSymtabCtx : GumElfStoreSymtabParamsContext :=
  { pending := 4, entries := 0, entry_size := 0, entry_count := 0, strtab := 0 }

/-- The symtab-parameter context after the capture pass over the dynamic
entries. -/
def symtabCtxOf (m : GumElfModule) : GumElfStoreSymtabParamsContext :=
  (gum_elf_module_enumerate_dynamic_entries m (gum_store_symtab_params m) initSymtabCtx).1

/-- The symbol records the dynamic-symbol loop builds from a captured context:
entry indices 1 .. entry_count - 1, each Elf64_Sym loaded at
entries + index * entry_size, its name at strtab + st_name, its address
translated, type/bind split out of st_info. -/
def symRecordsFromCtx (m : GumElfModule) (ctx : GumElfStoreSymtabParamsContext) :
    List GumElfSymbolDetails :=
  (List.range' 1 (ctx.entry_count - 1)).map (fun entry_index =>
    let sym := m.readSym (addr64 (ctx.entries + entry_index * ctx.entry_size))
    { name := m.readStr (addr64 (ctx.strtab + sym.st_name % UINT32_MOD))
    , address := gum_elf_module_resolve_virtual_address m (sym.st_value % UINT64_MOD)
    , type := GELF_ST_TYPE (sym.st_info % 256)
    , bind := GELF_ST_BIND (sym.st_info % 256)
    , section_header_index := sym.st_shndx % UINT16_MOD })

/-- The records delivered by a full (never-stopped) dynamic-symbol
enumeration: empty when the capture pass left pending nonzero. -/
def dynSymRecords (m : GumElfModule) : List GumElfSymbolDetails :=
  let ctx := symtabCtxOf m
  if ctx.pending ≠ 0 then [] else symRecordsFromCtx m ctx

/-- gum_elf_module_enumerate_dynamic_symbols: run the capture pass; return
silently if any of the four parameters is still pending; otherwise walk the
symbol table from index 1 with stop semantics. -/
def gum_elf_module_enumerate_dynamic_symbols {σ : Type} (m : GumElfModule)
    (f : σ → GumElfSymbolDetails → σ × Bool) (s : σ) :
    σ × List GumElfSymbolDetails :=
  let ctx := symtabCtxOf m
  if ctx.pending ≠ 0 then (s, [])
  else runEnum f s (symRecordsFromCtx m ctx)

/-- gum_elf_module_find_section_header: linear scan (elf_nextscn starts at
section index 1) for the first section of the requested type. -/
def gum_elf_module_find_section_header (m : GumElfModule) (t : Nat) :
    Option GElfShdr :=
  m.shdrs.find? (fun shdr => shdr.sh_type == t)

/-- The symbol records of a named-section walk: `symbol_count =
shdr.sh_size / shdr.sh_entsize` (a GElf_Word), names resolved through the
section's linked string table (elf_strptr with shdr.sh_link). -/
def secSymRecords (m : GumElfModule) (shdr : GElfShdr) :
    List GumElfSymbolDetails :=
  (List.range ((shdr.sh_size / shdr.sh_entsize) % UINT32_MOD)).map (fun symbol_index =>
    let sym := shdr.getSym symbol_index
    { name := m.strptr shdr.sh_link (sym.st_name % UINT32_MOD)
    , address := gum_elf_module_resolve_virtual_address m (sym.st_value % UINT64_MOD)
    , type := GELF_ST_TYPE (sym.st_info % 256)
    , bind := GELF_ST_BIND (sym.st_info % 256)
    , section_header_index := sym.st_shndx % UINT16_MOD })

/-- gum_elf_module_enumerate_symbols_in_section: return silently when no
section of the requested type exists, otherwise walk its symbols from index 0
with stop semantics. -/
def gum_elf_module_enumerate_symbols_in_section {σ : Type} (m : GumElfModule)
    (t : Nat) (f : σ → GumElfSymbolDetails → σ × Bool) (s : σ) :
    σ × List GumElfSymbolDetails :=
  match gum_elf_module_find_section_header m t with
  | none => (s, [])
  | some shdr => runEnum f s (secSymRecords m shdr)

/-- The records a full walk of the SHT_SYMTAB section delivers. -/
def allSymRecords (m : GumElfModule) : List GumElfSymbolDetails :=
  match gum_elf_module_find_section_header m SHT_SYMTAB with
  | none => []
  | some shdr => secSymRecords m shdr

/-- gum_elf_module_enumerate_symbols: the SHT_SYMTAB section walk. -/
def gum_elf_module_enumerate_symbols {σ : Type} (m : GumElfModule)
    (f : σ → GumElfSymbolDetails → σ × Bool) (s : σ) :
    σ × List GumElfSymbolDetails :=
  gum_elf_module_enumerate_symbols_in_section m SHT_SYMTAB f s

/-- The shared shape of gum_emit_each_needed / gum_emit_elf_import /
gum_emit_elf_export: skip records failing the classification test (returning
TRUE), convert matching ones, hand them to the caller's callback, and relay
its continue/stop answer.  The list component of the state records the
converted records actually delivered to the caller's callback. -/
def emitFiltered {σ α β : Type} (p : α → Bool) (conv : α → β)
    (g : σ → β → σ × Bool) : (σ × List β) → α → (σ × List β) × Bool :=
  fun sacc x =>
    if p x then
      let r := conv x
      let g' := g sacc.1 r
      ((g'.1, sacc.2 ++ [r]), g'.2)
    else (sacc, true)

/-- gum_store_strtab: ignore entries other than DT_STRTAB (continue); on
DT_STRTAB capture the translated pointer and stop. -/
def gum_store_strtab (m : GumElfModule) (strtab : Nat)
    (d : GumElfDynamicEntryDetails) : Nat × Bool :=
  if d.type ≠ DT_STRTAB then (strtab, true)
  else (gum_elf_module_resolve_virtual_address m d.value, false)

/-- gum_emit_each_needed: emit a dependency record for each DT_NEEDED entry,
its name the string at strtab + value. -/
def gum_emit_each_needed {σ : Type} (m : GumElfModule) (strtab : Nat)
    (g : σ → GumElfDependencyDetails → σ × Bool) :
    (σ × List GumElfDependencyDetails) → GumElfDynamicEntryDetails →
      (σ × List GumElfDependencyDetails) × Bool :=
  emitFiltered (fun d => d.type == DT_NEEDED)
    (fun d => { name := m.readStr (addr64 (strtab + d.value)) }) g

/-- gum_elf_module_enumerate_dependencies: capture the dynamic string table
pointer (ctx.strtab starts NULL); if it is still NULL afterwards return
silently; otherwise enumerate the dynamic entries again emitting a dependency
per DT_NEEDED entry. -/
def gum_elf_module_enumerate_dependencies {σ : Type} (m : GumElfModule)
    (g : σ → GumElfDependencyDetails → σ × Bool) (s : σ) :
    σ × List GumElfDependencyDetails :=
  let strtab := (gum_elf_module_enumerate_dynamic_entries m (gum_store_strtab m) 0).1
  if strtab = 0 then (s, [])
  else
    (gum_elf_module_enumerate_dynamic_entries m
      (gum_emit_each_needed m strtab g) (s, [])).1

/-- The classification test of gum_emit_elf_import. -/
def importPred (d : GumElfSymbolDetails) : Bool :=
  d.section_header_index == SHN_UNDEF && (d.type == STT_FUNC || d.type == STT_OBJECT)

/-- The GumImportDetails gum_emit_elf_import builds: no originating module,
no address. -/
def mkImportDetails (d : GumElfSymbolDetails) : GumImportDetails :=
  { type := if d.type == STT_FUNC then .GUM_EXPORT_FUNCTION else .GUM_EXPORT_VARIABLE
  , name := d.name
  , module := none
  , address := 0 }

/-- gum_emit_elf_import. -/
def gum_emit_elf_import {σ : Type} (g : σ → GumImportDetails → σ × Bool) :
    (σ × List GumImportDetails) → GumElfSymbolDetails →
      (σ × List GumImportDetails) × Bool :=
  emitFiltered importPred mkImportDetails g

/-- gum_elf_module_enumerate_imports: dynamic symbols filtered through
gum_emit_elf_import. -/
def gum_elf_module_enumerate_imports {σ : Type} (m : GumElfModule)
    (g : σ → GumImportDetails → σ × Bool) (s : σ) : σ × List GumImportDetails :=
  (gum_elf_module_enumerate_dynamic_symbols m (gum_emit_elf_import g) (s, [])).1

/-- The classification test of gum_emit_elf_export. -/
def exportPred (d : GumElfSymbolDetails) : Bool :=
  d.section_header_index != SHN_UNDEF
    && (d.type == STT_FUNC || d.type == STT_OBJECT)
    && (d.bind == STB_GLOBAL || d.bind == STB_WEAK)

/-- The GumExportDetails gum_emit_elf_export builds. -/
def mkExportDetails (d : GumElfSymbolDetails) : GumExportDetails :=
  { type := if d.type == STT_FUNC then .GUM_EXPORT_FUNCTION else .GUM_EXPORT_VARIABLE
  , name := d.name
  , address := d.address }

/-- gum_emit_elf_export. -/
def gum_emit_elf_export {σ : Type} (g : σ → GumExportDetails → σ × Bool) :
    (σ × List GumExportDetails) → GumElfSymbolDetails →
      (σ × List GumExportDetails) × Bool :=
  emitFiltered exportPred mkExportDetails g

/-- gum_elf_module_enumerate_exports: dynamic symbols filtered through
gum_emit_elf_export. -/
def gum_elf_module_enumerate_exports {σ : Type} (m : GumElfModule)
    (g : σ → GumExportDetails → σ × Bool) (s : σ) : σ × List GumExportDetails :=
  (gum_elf_module_enumerate_dynamic_symbols m (gum_emit_elf_export g) (s, [])).1

/-- Modelled from the spec: "On success, scans program headers once to find
the first loadable segment whose file offset is zero; its virtual address is
recorded as the preferred (link-time) base address.  If no such segment
exists, preferred address defaults to zero."  This is the spec's wording of
the preferred-address computation (requiring the segment to be PT_LOAD), to
be compared with gum_elf_module_compute_preferred_address. -/
def preferredAddressPerSpec (phdrs : List GElfPhdr) : Nat :=
  ((phdrs.find? (fun phdr => phdr.p_type == PT_LOAD && phdr.p_offset == 0)).map
    GElfPhdr.p_vaddr).getD 0

/-- The four dynamic tags the dynamic-symbol capture pass looks for. -/
def fourSymtabTags : List Int := [DT_SYMTAB, DT_SYMENT, DT_HASH, DT_STRTAB]

/-- Whether a dynamic entry carries one of the four captured tags. -/
def relTag (d : GumElfDynamicEntryDetails) : Bool :=
  d.type == DT_SYMTAB || d.type == DT_SYMENT || d.type == DT_HASH || d.type == DT_STRTAB

/- Concrete instances used to exercise the theorems on closed inputs. -/

/-- A module mapped at 0x1000 whose link-time preferred base is 0x400; every
memory read stubbed (the address translator never reads memory). -/
def affineImg : GumElfModule :=
  { base_address := 0x1000
  , preferred_address := 0x400
  , phdrs := []
  , shdrs := []
  , readDyn := fun _ => { type := 0, value := 0 }
  , readSym := fun _ => { st_name := 0, st_value := 0, st_info := 0, st_shndx := 0 }
  , readU32 := fun _ => 0
  , readStr := fun _ => ""
  , strptr := fun _ _ => "" }

/-- The spec's translation scenario: runtime base 0x7f0000000000, preferred
base 0x400000. -/
def scenarioImg : GumElfModule :=
  { base_address := 0x7f0000000000
  , preferred_address := 0x400000
  , phdrs := []
  , shdrs := []
  , readDyn := fun _ => { type := 0, value := 0 }
  , readSym := fun _ => { st_name := 0, st_value := 0, st_info := 0, st_shndx := 0 }
  , readU32 := fun _ => 0
  , readStr := fun _ => ""
  , strptr := fun _ _ => "" }

/-- Program headers whose first zero-file-offset entry is a PT_PHDR header at
vaddr 0x1234, followed by a PT_LOAD header at vaddr 0x400000 that also has
file offset zero. -/
def mixedPhdrs : List GElfPhdr :=
  [ { p_type := PT_PHDR, p_offset := 0, p_vaddr := 0x1234, p_memsz := 0 }
  , { p_type := PT_LOAD, p_offset := 0, p_vaddr := 0x400000, p_memsz := 0x1000 } ]

/-- A well-formed shared object (ET_DYN) whose program headers are
`mixedPhdrs`. -/
def mixedFile : ElfFile :=
  { openOk := true
  , parseOk := true
  , e_type := 3
  , phdrs := mixedPhdrs
  , shdrs := []
  , readDyn := fun _ => { type := 0, value := 0 }
  , readSym := fun _ => { st_name := 0, st_value := 0, st_info := 0, st_shndx := 0 }
  , readU32 := fun _ => 0
  , readStr := fun _ => ""
  , strptr := fun _ _ => "" }

/-- The module gum_elf_module_new_from_memory builds from `mixedFile` at base
address 0. -/
def mixedImg : GumElfModule :=
  { base_address := 0
  , preferred_address := 0x1234
  , phdrs := mixedPhdrs
  , shdrs := []
  , readDyn := fun _ => { type := 0, value := 0 }
  , readSym := fun _ => { st_name := 0, st_value := 0, st_info := 0, st_shndx := 0 }
  , readU32 := fun _ => 0
  , readStr := fun _ => ""
  , strptr := fun _ _ => "" }

/-- A relocatable object file: parses as ELF but e_type = ET_REL. -/
def relFile : ElfFile :=
  { openOk := true
  , parseOk := true
  , e_type := 1
  , phdrs := []
  , shdrs := []
  , readDyn := fun _ => { type := 0, value := 0 }
  , readSym := fun _ => { st_name := 0, st_value := 0, st_info := 0, st_shndx := 0 }
  , readU32 := fun _ => 0
  , readStr := fun _ => ""
  , strptr := fun _ _ => "" }

/-- A fully static image: one loadable segment, no PT_DYNAMIC. -/
def staticImg : GumElfModule :=
  { base_address := 0
  , preferred_address := 0
  , phdrs := [ { p_type := PT_LOAD, p_offset := 0, p_vaddr := 0, p_memsz := 0x1000 } ]
  , shdrs := []
  , readDyn := fun _ => { type := 0, value := 0 }
  , readSym := fun _ => { st_name := 0, st_value := 0, st_info := 0, st_shndx := 0 }
  , readU32 := fun _ => 0
  , readStr := fun _ => ""
  , strptr := fun _ _ => "" }

/-- A module loaded at its preferred base (both 0) with a PT_DYNAMIC segment
of 4 entries at vaddr 0x1000 carrying all four symtab parameters, a hash
table at 0x3000 with nchain = 3, a symbol table at 0x2000 with 24-byte
entries, its string table at 0x4000, and one SHT_SYMTAB section of two
symbols. -/
def fullImg : GumElfModule :=
  { base_address := 0
  , preferred_address := 0
  , phdrs := [ { p_type := PT_DYNAMIC, p_offset := 0x40, p_vaddr := 0x1000, p_memsz := 64 } ]
  , shdrs := [ { sh_type := SHT_SYMTAB, sh_size := 48, sh_entsize := 24, sh_link := 7
               , getSym := fun i =>
                   if i = 0 then { st_name := 0, st_value := 0, st_info := 0, st_shndx := 0 }
                   else { st_name := 3, st_value := 0x300, st_info := 0x21, st_shndx := 1 } } ]
  , readDyn := fun a =>
      if a = 0x1000 then { type := DT_SYMTAB, value := 0x2000 }
      else if a = 0x1010 then { type := DT_SYMENT, value := 24 }
      else if a = 0x1020 then { type := DT_HASH, value := 0x3000 }
      else if a = 0x1030 then { type := DT_STRTAB, value := 0x4000 }
      else { type := 0, value := 0 }
  , readSym := fun a =>
      if a = 0x2018 then { st_name := 1, st_value := 0x100, st_info := 0x12, st_shndx := 5 }
      else if a = 0x2030 then { st_name := 2, st_value := 0x200, st_info := 0x11, st_shndx := 0 }
      else { st_name := 0, st_value := 0, st_info := 0, st_shndx := 0 }
  , readU32 := fun a => if a = 0x3004 then 3 else 0
  , readStr := fun a => if a = 0x4001 then "alpha" else if a = 0x4002 then "beta" else ""
  , strptr := fun l o => if l = 7 ∧ o = 3 then "gamma" else "" }

/-- A dynamic segment listing DT_SYMTAB only: one of the four symtab
parameters present, none duplicated. -/
def symtabOnlyImg : GumElfModule :=
  { base_address := 0
  , preferred_address := 0
  , phdrs := [ { p_type := PT_DYNAMIC, p_offset := 0x40, p_vaddr := 0x1000, p_memsz := 16 } ]
  , shdrs := []
  , readDyn := fun a =>
      if a = 0x1000 then { type := DT_SYMTAB, value := 0x2000 }
      else { type := 0, value := 0 }
  , readSym := fun _ => { st_name := 0, st_value := 0, st_info := 0, st_shndx := 0 }
  , readU32 := fun _ => 0
  , readStr := fun _ => ""
  , strptr := fun _ _ => "" }

/-- A dynamic segment with a DUPLICATED DT_SYMTAB tag plus DT_SYMENT and
DT_HASH, but no DT_STRTAB at all.  The hash table reports nchain = 2, so one
symbol exists at table index 1. -/
def dupTagImg : GumElfModule :=
  { base_address := 0
  , preferred_address := 0
  , phdrs := [ { p_type := PT_DYNAMIC, p_offset := 0x40, p_vaddr := 0x1000, p_memsz := 64 } ]
  , shdrs := []
  , readDyn := fun a =>
      if a = 0x1000 then { type := DT_SYMTAB, value := 0x2000 }
      else if a = 0x1010 then { type := DT_SYMTAB, value := 0x2000 }
      else if a = 0x1020 then { type := DT_SYMENT, value := 24 }
      else if a = 0x1030 then { type := DT_HASH, value := 0x3000 }
      else { type := 0, value := 0 }
  , readSym := fun a =>
      if a = 0x2018 then { st_name := 0, st_value := 0x100, st_info := 0x12, st_shndx := 1 }
      else { st_name := 0, st_value := 0, st_info := 0, st_shndx := 0 }
  , readU32 := fun a => if a = 0x3004 then 2 else 0
  , readStr := fun _ => "x"
  , strptr := fun _ _ => "" }

/-- The spec's dependency scenario: dynamic entries
[NEEDED at string offset 1, NEEDED at string offset 11, STRTAB at 0x2000,
NULL], with "libc.so.6" at 0x2001 and "libm.so.6" at 0x200b. -/
def depsImg : GumElfModule :=
  { base_address := 0
  , preferred_address := 0
  , phdrs := [ { p_type := PT_DYNAMIC, p_offset := 0x40, p_vaddr := 0x1000, p_memsz := 64 } ]
  , shdrs := []
  , readDyn := fun a =>
      if a = 0x1000 then { type := DT_NEEDED, value := 1 }
      else if a = 0x1010 then { type := DT_NEEDED, value := 11 }
      else if a = 0x1020 then { type := DT_STRTAB, value := 0x2000 }
      else { type := 0, value := 0 }
  , readSym := fun _ => { st_name := 0, st_value := 0, st_info := 0, st_shndx := 0 }
  , readU32 := fun _ => 0
  , readStr := fun a =>
      if a = 0x2001 then "libc.so.6" else if a = 0x200b then "libm.so.6" else ""
  , strptr := fun _ _ => "" }

/-- A module loaded at its preferred base whose DT_STRTAB entry has value 0:
the translated string-table pointer is NULL although a DT_STRTAB entry and a
DT_NEEDED entry both exist. -/
def nullStrtabImg : GumElfModule :=
  { base_address := 0
  , preferred_address := 0
  , phdrs := [ { p_type := PT_DYNAMIC, p_offset := 0x40, p_vaddr := 0x1000, p_memsz := 32 } ]
  , shdrs := []
  , readDyn := fun a =>
      if a = 0x1000 then { type := DT_NEEDED, value := 1 }
      else if a = 0x1010 then { type := DT_STRTAB, value := 0 }
      else { type := 0, value := 0 }
  , readSym := fun _ => { st_name := 0, st_value := 0, st_info := 0, st_shndx := 0 }
  , readU32 := fun _ => 0
  , readStr := fun a => if a = 1 then "libx.so" else ""
  , strptr := fun _ _ => "" }

/- Helper lemmas about the enumeration skeleton. -/

theorem runEnum_nil {σ α : Type} (f : σ → α → σ × Bool) (s : σ) :
    runEnum f s ([] : List α) = (s, []) := rfl

theorem runEnum_cons_stop {σ α : Type} (f : σ → α → σ × Bool) (s : σ) (x : α)
    (xs : List α) (h : (f s x).2 = false) :
    runEnum f s (x :: xs) = ((f s x).1, [x]) := by
  rcases hfx : f s x with ⟨s', b⟩
  rw [hfx] at h
  simp at h
  subst h
  simp [runEnum, hfx]

theorem runEnum_cons_continue {σ α : Type} (f : σ → α → σ × Bool) (s : σ) (x : α)
    (xs : List α) (h : (f s x).2 = true) :
    runEnum f s (x :: xs) =
      ((runEnum f (f s x).1 xs).1, x :: (runEnum f (f s x).1 xs).2) := by
  rcases hfx : f s x with ⟨s', b⟩
  rw [hfx] at h
  simp at h
  subst h
  simp [runEnum, hfx]

theorem runEnum_initSeg {σ α : Type} (f : σ → α → σ × Bool) :
    ∀ (s : σ) (xs : List α), ∃ rest, xs = (runEnum f s xs).2 ++ rest := by
  intro s xs
  induction xs generalizing s with
  | nil => exact ⟨[], rfl⟩
  | cons x xs ih =>
    rcases hfx : f s x with ⟨s', b⟩
    cases b with
    | false =>
      refine ⟨xs, ?_⟩
      simp [runEnum, hfx]
    | true =>
      obtain ⟨rest, hr⟩ := ih s'
      refine ⟨rest, ?_⟩
      simp [runEnum, hfx]
      exact hr

theorem runEnum_take {σ α : Type} (f : σ → α → σ × Bool) :
    ∀ (s : σ) (xs : List α),
      runEnum f s xs = runEnum f s (xs.take (runEnum f s xs).2.length) := by
  intro s xs
  induction xs generalizing s with
  | nil => rfl
  | cons x xs ih =>
    rcases hfx : f s x with ⟨s', b⟩
    cases b with
    | false =>
      simp [runEnum, hfx]
    | true =>
      have hcont : (f s x).2 = true := by rw [hfx]
      rw [runEnum_cons_continue f s x xs hcont]
      simp only [List.length_cons, List.take_succ_cons]
      rw [runEnum_cons_continue f s x _ hcont]
      rw [hfx]
      simp only []
      rw [← ih s']

/- Bridge lemmas: each enumeration entry point is runEnum on its record list. -/

theorem enumerate_dynamic_entries_eq_runEnum {σ : Type} (m : GumElfModule)
    (f : σ → GumElfDynamicEntryDetails → σ × Bool) (s : σ) :
    gum_elf_module_enumerate_dynamic_entries m f s = runEnum f s (dynEntryList m) := by
  unfold gum_elf_module_enumerate_dynamic_entries dynEntryList
  cases h : gum_elf_module_find_dynamic_range m with
  | none => simp [runEnum]
  | some r => rfl

theorem enumerate_dynamic_symbols_eq_runEnum {σ : Type} (m : GumElfModule)
    (f : σ → GumElfSymbolDetails → σ × Bool) (s : σ) :
    gum_elf_module_enumerate_dynamic_symbols m f s = runEnum f s (dynSymRecords m) := by
  unfold gum_elf_module_enumerate_dynamic_symbols dynSymRecords
  by_cases h : (symtabCtxOf m).pending ≠ 0
  · simp [h, runEnum]
  · simp [h]

theorem enumerate_symbols_eq_runEnum {σ : Type} (m : GumElfModule)
    (f : σ → GumElfSymbolDetails → σ × Bool) (s : σ) :
    gum_elf_module_enumerate_symbols m f s = runEnum f s (allSymRecords m) := by
  unfold gum_elf_module_enumerate_symbols gum_elf_module_enumerate_symbols_in_section
    allSymRecords
  cases h : gum_elf_module_find_section_header m SHT_SYMTAB with
  | none => simp [runEnum]
  | some shdr => rfl

/- Helper lemmas about the emit wrappers. -/

theorem runEnum_emitFiltered_continue {σ α β : Type} (p : α → Bool) (conv : α → β)
    (g : σ → β → σ × Bool) (hg : ∀ a b, (g a b).2 = true) :
    ∀ (xs : List α) (s : σ) (acc : List β),
      ((runEnum (emitFiltered p conv g) (s, acc) xs).1).2
        = acc ++ (xs.filter p).map conv := by
  intro xs
  induction xs with
  | nil => intro s acc; simp [runEnum]
  | cons x xs ih =>
    intro s acc
    by_cases hp : p x
    · have hfx : emitFiltered p conv g (s, acc) x
          = (((g s (conv x)).1, acc ++ [conv x]), (g s (conv x)).2) := by
        simp [emitFiltered, hp]
      have hcont : (emitFiltered p conv g (s, acc) x).2 = true := by
        rw [hfx]; exact hg s (conv x)
      rw [runEnum_cons_continue _ _ _ _ hcont, hfx]
      simp only []
      rw [ih]
      simp [hp]
    · have hfx : emitFiltered p conv g (s, acc) x = ((s, acc), true) := by
        simp [emitFiltered, hp]
      have hcont : (emitFiltered p conv g (s, acc) x).2 = true := by rw [hfx]
      rw [runEnum_cons_continue _ _ _ _ hcont, hfx]
      simp only []
      rw [ih]
      simp [hp]

theorem runEnum_emitFiltered_initSeg {σ α β : Type} (p : α → Bool) (conv : α → β)
    (g : σ → β → σ × Bool) :
    ∀ (xs : List α) (s : σ) (acc : List β),
      ∃ t u, ((runEnum (emitFiltered p conv g) (s, acc) xs).1).2 = acc ++ t
        ∧ (xs.filter p).map conv = t ++ u := by
  intro xs
  induction xs with
  | nil => intro s acc; exact ⟨[], [], by simp [runEnum], by simp⟩
  | cons x xs ih =>
    intro s acc
    by_cases hp : p x
    · rcases hgx : g s (conv x) with ⟨s', b⟩
      have hfx : emitFiltered p conv g (s, acc) x
          = ((s', acc ++ [conv x]), b) := by
        simp [emitFiltered, hp, hgx]
      cases b with
      | false =>
        have hstop : (emitFiltered p conv g (s, acc) x).2 = false := by rw [hfx]
        rw [runEnum_cons_stop _ _ _ _ hstop, hfx]
        refine ⟨[conv x], (xs.filter p).map conv, by simp, by simp [hp]⟩
      | true =>
        have hcont : (emitFiltered p conv g (s, acc) x).2 = true := by rw [hfx]
        rw [runEnum_cons_continue _ _ _ _ hcont, hfx]
        simp only []
        obtain ⟨t, u, h1, h2⟩ := ih s' (acc ++ [conv x])
        refine ⟨conv x :: t, u, ?_, ?_⟩
        · rw [h1]; simp
        · simp [hp, h2]
    · have hfx : emitFiltered p conv g (s, acc) x = ((s, acc), true) := by
        simp [emitFiltered, hp]
      have hcont : (emitFiltered p conv g (s, acc) x).2 = true := by rw [hfx]
      rw [runEnum_cons_continue _ _ _ _ hcont, hfx]
      simp only []
      obtain ⟨t, u, h1, h2⟩ := ih s acc
      exact ⟨t, u, h1, by simp [hp, h2]⟩

/- Helper lemma about the strtab capture pass. -/

theorem runEnum_store_strtab (m : GumElfModule) :
    ∀ (xs : List GumElfDynamicEntryDetails) (st : Nat),
      (runEnum (gum_store_strtab m) st xs).1
        = match xs.find? (fun d => d.type == DT_STRTAB) with
          | none => st
          | some d => gum_elf_module_resolve_virtual_address m d.value := by
  intro xs
  induction xs with
  | nil => intro st; simp [runEnum]
  | cons d xs ih =>
    intro st
    by_cases hd : d.type = DT_STRTAB
    · have hfx : gum_store_strtab m st d
          = (gum_elf_module_resolve_virtual_address m d.value, false) := by
        simp [gum_store_strtab, hd]
      have hstop : (gum_store_strtab m st d).2 = false := by rw [hfx]
      rw [runEnum_cons_stop _ _ _ _ hstop, hfx]
      simp [List.find?_cons, hd]
    · have hfx : gum_store_strtab m st d = (st, true) := by
        simp [gum_store_strtab, hd]
      have hcont : (gum_store_strtab m st d).2 = true := by rw [hfx]
      rw [runEnum_cons_continue _ _ _ _ hcont, hfx]
      simp only []
      rw [ih]
      have : (d.type == DT_STRTAB) = false := by simp [hd]
      simp [List.find?_cons, this]

/- Helper lemmas about the symtab-parameter capture pass. -/

theorem store_symtab_params_pending_rel (m : GumElfModule)
    (ctx : GumElfStoreSymtabParamsContext) (d : GumElfDynamicEntryDetails)
    (h : relTag d = true) :
    (gum_store_symtab_params m ctx d).1.pending = decU32 ctx.pending := by
  by_cases h6 : d.type = DT_SYMTAB
  · simp [gum_store_symtab_params, h6]
  · by_cases h11 : d.type = DT_SYMENT
    · simp [gum_store_symtab_params, DT_SYMTAB, DT_SYMENT, h6, h11]
    · by_cases h4 : d.type = DT_HASH
      · simp [gum_store_symtab_params, DT_SYMTAB, DT_SYMENT, DT_HASH, h6, h11, h4]
      · by_cases h5 : d.type = DT_STRTAB
        · simp [gum_store_symtab_params, DT_SYMTAB, DT_SYMENT, DT_HASH, DT_STRTAB,
            h6, h11, h4, h5]
        · simp [relTag, h6, h11, h4, h5] at h

theorem store_symtab_params_skip (m : GumElfModule)
    (ctx : GumElfStoreSymtabParamsContext) (d : GumElfDynamicEntryDetails)
    (h : relTag d = false) :
    (gum_store_symtab_params m ctx d).1 = ctx := by
  by_cases h6 : d.type = DT_SYMTAB
  · exfalso; simp [relTag, h6] at h
  · by_cases h11 : d.type = DT_SYMENT
    · exfalso; simp [relTag, h11] at h
    · by_cases h4 : d.type = DT_HASH
      · exfalso; simp [relTag, h4] at h
      · by_cases h5 : d.type = DT_STRTAB
        · exfalso; simp [relTag, h5] at h
        · simp [gum_store_symtab_params, h6, h11, h4, h5]

theorem store_symtab_params_snd (m : GumElfModule)
    (ctx : GumElfStoreSymtabParamsContext) (d : GumElfDynamicEntryDetails) :
    (gum_store_symtab_params m ctx d).2
      = ((gum_store_symtab_params m ctx d).1.pending != 0) := rfl

theorem decU32_small (n : Nat) (h1 : 1 ≤ n) (h2 : n ≤ 4) : decU32 n = n - 1 := by
  unfold decU32 UINT32_MOD
  omega

theorem runEnum_symtab_pending (m : GumElfModule) :
    ∀ (xs : List GumElfDynamicEntryDetails) (ctx : GumElfStoreSymtabParamsContext),
      xs.countP relTag < ctx.pending → ctx.pending ≤ 4 →
      ((runEnum (gum_store_symtab_params m) ctx xs).1).pending
        = ctx.pending - xs.countP relTag := by
  intro xs
  induction xs with
  | nil => intro ctx _ _; simp [runEnum]
  | cons d xs ih =>
    intro ctx hlt hle
    by_cases hrel : relTag d = true
    · have hcount : (d :: xs).countP relTag = xs.countP relTag + 1 := by
        simp [List.countP_cons, hrel]
      rw [hcount] at hlt
      have hp1 : 1 ≤ ctx.pending := by omega
      have hpend : (gum_store_symtab_params m ctx d).1.pending = ctx.pending - 1 := by
        rw [store_symtab_params_pending_rel m ctx d hrel, decU32_small _ hp1 hle]
      have hcont : (gum_store_symtab_params m ctx d).2 = true := by
        rw [store_symtab_params_snd, hpend]
        simp
        omega
      rw [runEnum_cons_continue _ _ _ _ hcont]
      simp only []
      rw [ih _ (by omega) (by omega)]
      rw [hpend, hcount]
      omega
    · have hrel' : relTag d = false := by
        cases hh : relTag d
        · rfl
        · exact absurd hh hrel
      have hcount : (d :: xs).countP relTag = xs.countP relTag := by
        simp [List.countP_cons, hrel']
      rw [hcount] at hlt
      have hctx : (gum_store_symtab_params m ctx d).1 = ctx :=
        store_symtab_params_skip m ctx d hrel'
      have hcont : (gum_store_symtab_params m ctx d).2 = true := by
        rw [store_symtab_params_snd, hctx]
        simp
        omega
      rw [runEnum_cons_continue _ _ _ _ hcont]
      simp only []
      rw [hctx, ih _ hlt hle, hcount]

theorem countP_relTag_decomp :
    ∀ xs : List GumElfDynamicEntryDetails,
      xs.countP relTag
        = xs.countP (fun d => d.type == DT_SYMTAB)
          + xs.countP (fun d => d.type == DT_SYMENT)
          + xs.countP (fun d => d.type == DT_HASH)
          + xs.countP (fun d => d.type == DT_STRTAB) := by
  intro xs
  induction xs with
  | nil => simp
  | cons d xs ih =>
    simp only [List.countP_cons]
    rw [ih]
    by_cases h6 : d.type = DT_SYMTAB
    · have : relTag d = true := by simp [relTag, h6]
      simp only [DT_SYMTAB, DT_SYMENT, DT_HASH, DT_STRTAB] at h6 ⊢
      simp [this, h6]
      omega
    · by_cases h11 : d.type = DT_SYMENT
      · have : relTag d = true := by simp [relTag, h11]
        simp only [DT_SYMTAB, DT_SYMENT, DT_HASH, DT_STRTAB] at h11 h6 ⊢
        simp [this, h6, h11]
        omega
      · by_cases h4 : d.type = DT_HASH
        · have : relTag d = true := by simp [relTag, h4]
          simp only [DT_SYMTAB, DT_SYMENT, DT_HASH, DT_STRTAB] at h4 h6 h11 ⊢
          simp [this, h6, h11, h4]
          omega
        · by_cases h5 : d.type = DT_STRTAB
          · have : relTag d = true := by simp [relTag, h5]
            simp only [DT_SYMTAB, DT_SYMENT, DT_HASH, DT_STRTAB] at h5 h6 h11 h4 ⊢
            simp [this, h6, h11, h4, h5]
            omega
          · have : relTag d = false := by simp [relTag, h6, h11, h4, h5]
            simp only [DT_SYMTAB, DT_SYMENT, DT_HASH, DT_STRTAB] at h5 h6 h11 h4 ⊢
            simp [this, h6, h11, h4, h5]

/- Helper lemmas about the preferred-address scan and missing structures. -/

theorem compute_preferred_address_eq_find :
    ∀ phdrs : List GElfPhdr,
      gum_elf_module_compute_preferred_address phdrs
        = ((phdrs.find? (fun phdr => phdr.p_offset == 0)).map GElfPhdr.p_vaddr).getD 0 := by
  intro phdrs
  induction phdrs with
  | nil => rfl
  | cons phdr rest ih =>
    by_cases h : phdr.p_offset = 0
    · simp [gum_elf_module_compute_preferred_address, List.find?_cons, h]
    · have hb : (phdr.p_offset == 0) = false := by simp [h]
      simp [gum_elf_module_compute_preferred_address, List.find?_cons, h, hb, ih]

theorem find_dynamic_range_none (m : GumElfModule)
    (h : ∀ phdr ∈ m.phdrs, phdr.p_type ≠ PT_DYNAMIC) :
    gum_elf_module_find_dynamic_range m = none := by
  unfold gum_elf_module_find_dynamic_range
  rw [List.find?_eq_none.mpr]
  · rfl
  · intro phdr hmem
    simpa using h phdr hmem

theorem dynEntryList_nil_of_no_dynamic (m : GumElfModule)
    (h : ∀ phdr ∈ m.phdrs, phdr.p_type ≠ PT_DYNAMIC) :
    dynEntryList m = [] := by
  unfold dynEntryList
  rw [find_dynamic_range_none m h]

theorem enumerate_dynamic_symbols_empty_of_no_entries {σ : Type} (m : GumElfModule)
    (h : dynEntryList m = []) (f : σ → GumElfSymbolDetails → σ × Bool) (s : σ) :
    gum_elf_module_enumerate_dynamic_symbols m f s = (s, []) := by
  have hctx : symtabCtxOf m = initSymtabCtx := by
    unfold symtabCtxOf
    rw [enumerate_dynamic_entries_eq_runEnum, h, runEnum_nil]
  unfold gum_elf_module_enumerate_dynamic_symbols
  rw [hctx]
  simp [initSymtabCtx]

theorem enumerate_dependencies_empty_of_no_entries {σ : Type} (m : GumElfModule)
    (h : dynEntryList m = []) (g : σ → GumElfDependencyDetails → σ × Bool) (s : σ) :
    gum_elf_module_enumerate_dependencies m g s = (s, []) := by
  unfold gum_elf_module_enumerate_dependencies
  rw [enumerate_dynamic_entries_eq_runEnum, h, runEnum_nil]
  simp

/- Claim theorems. -/

/-- C1: for every Image with runtime base address B and preferred base
address P, the address translator computes resolve(a) = B + (a - P) for every
input address a with 64-bit wraparound; consequently resolve(P) = B and
resolve(a + k) = resolve(a) + k (64-bit addition) for every offset k. -/
theorem resolve_affine_shift (m : GumElfModule) (a k : Nat)
    (hB : m.base_address < UINT64_MOD) (hP : m.preferred_address < UINT64_MOD) :
    gum_elf_module_resolve_virtual_address m a
        = (m.base_address + a + UINT64_MOD - m.preferred_address) % UINT64_MOD
    ∧ gum_elf_module_resolve_virtual_address m m.preferred_address = m.base_address
    ∧ gum_elf_module_resolve_virtual_address m (add64 a k)
        = add64 (gum_elf_module_resolve_virtual_address m a) k := by
  unfold gum_elf_module_resolve_virtual_address add64 sub64 UINT64_MOD at *
  refine ⟨?_, ?_, ?_⟩ <;> omega

/-- Witness for C1 at a concrete module (base 0x1000, preferred 0x400). -/
theorem resolve_affine_shift_witness :
    gum_elf_module_resolve_virtual_address affineImg affineImg.preferred_address
        = affineImg.base_address
    ∧ gum_elf_module_resolve_virtual_address affineImg (add64 5 7)
        = add64 (gum_elf_module_resolve_virtual_address affineImg 5) 7 :=
  ⟨(resolve_affine_shift affineImg 5 7 (by decide) (by decide)).2.1,
   (resolve_affine_shift affineImg 5 7 (by decide) (by decide)).2.2⟩

/-- C10 (counterexample): at runtime base 0x7f0000000000 and preferred base
0x400000 the translator does NOT map 0x401020 to the spec's 0x7f00000001020
(that figure has a spurious extra zero). -/
theorem scenario_resolve_cex :
    gum_elf_module_resolve_virtual_address scenarioImg 0x401020 ≠ 0x7f00000001020 := by
  decide

/-- C10 (amended): for an Image with runtime base address 0x7f0000000000 and
preferred base address 0x400000, the address translator maps the link-time
address 0x401020 to 0x7f0000001020. -/
theorem scenario_resolve (m : GumElfModule)
    (hB : m.base_address = 0x7f0000000000) (hP : m.preferred_address = 0x400000) :
    gum_elf_module_resolve_virtual_address m 0x401020 = 0x7f0000001020 := by
  simp only [gum_elf_module_resolve_virtual_address, add64, sub64, hB, hP]
  decide

/-- Witness for C10 at the concrete scenario module. -/
theorem scenario_resolve_witness :
    gum_elf_module_resolve_virtual_address scenarioImg 0x401020 = 0x7f0000001020 :=
  scenario_resolve scenarioImg rfl rfl

/-- C9: a file that parses as ELF but whose header object type is neither
ET_EXEC nor ET_DYN is rejected at construction: gum_elf_module_new_from_memory
returns NULL and no Image is produced. -/
theorem unsupported_type_rejected (f : ElfFile) (base_address : Nat)
    (hopen : f.openOk = true) (hparse : f.parseOk = true)
    (hexec : f.e_type % UINT16_MOD ≠ ET_EXEC) (hdyn : f.e_type % UINT16_MOD ≠ ET_DYN) :
    gum_elf_module_new_from_memory f base_address = none := by
  simp [gum_elf_module_new_from_memory, hopen, hparse, hexec, hdyn]

/-- Witness for C9: a relocatable object file (ET_REL) yields no Image. -/
theorem unsupported_type_rejected_witness :
    gum_elf_module_new_from_memory relFile 0 = none :=
  unsupported_type_rejected relFile 0 rfl rfl (by decide) (by decide)

/-- C2 (counterexample): a successfully constructed Image whose first
zero-file-offset program header is a PT_PHDR header (vaddr 0x1234) gets
preferred address 0x1234, not the vaddr 0x400000 of its first loadable
(PT_LOAD) zero-offset segment as the claim requires. -/
theorem preferred_address_ignores_segment_type_cex :
    (gum_elf_module_new_from_memory mixedFile 0).map (fun img => img.preferred_address)
        = some 0x1234
    ∧ preferredAddressPerSpec mixedFile.phdrs = 0x400000
    ∧ (0x1234 : Nat) ≠ 0x400000 := by
  refine ⟨?_, by decide, by decide⟩
  rfl

/-- C2 (amended): for every successfully constructed Image, the computed
preferred base address equals the virtual address of the first program-header
entry (of any segment type) whose file offset is zero, scanning program
headers in order; if no header has file offset zero, it is zero. -/
theorem preferred_address_first_zero_offset (f : ElfFile) (base_address : Nat)
    (img : GumElfModule)
    (h : gum_elf_module_new_from_memory f base_address = some img) :
    img.preferred_address
      = ((f.phdrs.find? (fun phdr => phdr.p_offset == 0)).map GElfPhdr.p_vaddr).getD 0 := by
  unfold gum_elf_module_new_from_memory at h
  by_cases h1 : f.openOk = false
  · rw [if_pos h1] at h; exact absurd h (by simp)
  · rw [if_neg h1] at h
    by_cases h2 : f.parseOk = false
    · rw [if_pos h2] at h; exact absurd h (by simp)
    · rw [if_neg h2] at h
      by_cases h3 : f.e_type % UINT16_MOD ≠ ET_EXEC ∧ f.e_type % UINT16_MOD ≠ ET_DYN
      · rw [if_pos h3] at h; exact absurd h (by simp)
      · rw [if_neg h3] at h
        have himg := Option.some.inj h
        rw [← himg]
        exact compute_preferred_address_eq_find f.phdrs

/-- Witness for C2 at the concrete mixed-header file. -/
theorem preferred_address_first_zero_offset_witness :
    mixedImg.preferred_address
      = ((mixedFile.phdrs.find? (fun phdr => phdr.p_offset == 0)).map GElfPhdr.p_vaddr).getD 0 :=
  preferred_address_first_zero_offset mixedFile 0 mixedImg rfl

/-- C3: for every Image whose program headers contain no PT_DYNAMIC segment,
dependency, import and export enumeration each deliver zero records, never
invoke the caller-supplied callback (the caller state comes back unchanged),
and raise no error (the functions return normally; they have no error
channel). -/
theorem no_dynamic_segment_empty_views {σ₁ σ₂ σ₃ : Type} (m : GumElfModule)
    (hnd : ∀ phdr ∈ m.phdrs, phdr.p_type ≠ PT_DYNAMIC)
    (g₁ : σ₁ → GumElfDependencyDetails → σ₁ × Bool) (s₁ : σ₁)
    (g₂ : σ₂ → GumImportDetails → σ₂ × Bool) (s₂ : σ₂)
    (g₃ : σ₃ → GumExportDetails → σ₃ × Bool) (s₃ : σ₃) :
    gum_elf_module_enumerate_dependencies m g₁ s₁ = (s₁, [])
    ∧ gum_elf_module_enumerate_imports m g₂ s₂ = (s₂, [])
    ∧ gum_elf_module_enumerate_exports m g₃ s₃ = (s₃, []) := by
  have hnil := dynEntryList_nil_of_no_dynamic m hnd
  refine ⟨enumerate_dependencies_empty_of_no_entries m hnil g₁ s₁, ?_, ?_⟩
  · unfold gum_elf_module_enumerate_imports
    rw [enumerate_dynamic_symbols_empty_of_no_entries m hnil _ (s₂, [])]
  · unfold gum_elf_module_enumerate_exports
    rw [enumerate_dynamic_symbols_empty_of_no_entries m hnil _ (s₃, [])]

/-- Witness for C3 at a concrete fully static image (one PT_LOAD header). -/
theorem no_dynamic_segment_empty_views_witness :
    gum_elf_module_enumerate_dependencies staticImg
        (fun (n : Nat) _ => (n + 1, true)) 0 = (0, [])
    ∧ gum_elf_module_enumerate_imports staticImg
        (fun (n : Nat) _ => (n + 1, true)) 0 = (0, [])
    ∧ gum_elf_module_enumerate_exports staticImg
        (fun (n : Nat) _ => (n + 1, true)) 0 = (0, []) :=
  no_dynamic_segment_empty_views staticImg (by decide)
    (fun (n : Nat) _ => (n + 1, true)) 0
    (fun (n : Nat) _ => (n + 1, true)) 0
    (fun (n : Nat) _ => (n + 1, true)) 0

/-- C4 (counterexample): the claim fails when a captured tag is duplicated.
In `dupTagImg` the dynamic entries are [DT_SYMTAB, DT_SYMTAB, DT_SYMENT,
DT_HASH] — DT_STRTAB is absent — yet the duplicate DT_SYMTAB drives the
pending counter to zero, so dynamic-symbol enumeration delivers one symbol
and does invoke the callback. -/
theorem dynamic_symbols_duplicate_tag_cex :
    (∀ d ∈ dynEntryList dupTagImg, d.type ≠ DT_STRTAB)
    ∧ ((gum_elf_module_enumerate_dynamic_symbols dupTagImg
          (fun (n : Nat) _ => (n + 1, true)) 0).2).length = 1 := by
  constructor
  · decide
  · decide

/-- C4 (amended): dynamic-symbol enumeration first gathers DT_SYMTAB,
DT_SYMENT, the DT_HASH entry count and DT_STRTAB from the dynamic entries;
if any one of the four tags is absent from the dynamic entries AND none of
the four tags occurs in more than one entry, the enumeration yields zero
symbols and never invokes the callback. -/
theorem dynamic_symbols_missing_param_empty {σ : Type} (m : GumElfModule)
    (f : σ → GumElfSymbolDetails → σ × Bool) (s : σ)
    (habs : ∃ t ∈ fourSymtabTags, ∀ d ∈ dynEntryList m, d.type ≠ t)
    (hdup : ∀ t ∈ fourSymtabTags,
      (dynEntryList m).countP (fun d => d.type == t) ≤ 1) :
    gum_elf_module_enumerate_dynamic_symbols m f s = (s, []) := by
  have hcount : (dynEntryList m).countP relTag < 4 := by
    rw [countP_relTag_decomp]
    obtain ⟨t, htmem, ht⟩ := habs
    have hzero : ∀ u : Int, (∀ d ∈ dynEntryList m, d.type ≠ u) →
        (dynEntryList m).countP (fun d => d.type == u) = 0 := by
      intro u hu
      rw [List.countP_eq_zero]
      intro d hd
      simpa using hu d hd
    have h6 := hdup DT_SYMTAB (by simp [fourSymtabTags])
    have h11 := hdup DT_SYMENT (by simp [fourSymtabTags])
    have h4 := hdup DT_HASH (by simp [fourSymtabTags])
    have h5 := hdup DT_STRTAB (by simp [fourSymtabTags])
    simp only [fourSymtabTags, List.mem_cons, List.not_mem_nil, or_false] at htmem
    rcases htmem with h | h | h | h <;>
      (subst h; rw [hzero _ ht] at *; omega)
  have hpend : (symtabCtxOf m).pending = 4 - (dynEntryList m).countP relTag := by
    unfold symtabCtxOf
    rw [enumerate_dynamic_entries_eq_runEnum]
    exact runEnum_symtab_pending m (dynEntryList m) initSymtabCtx hcount (by rfl)
  have hne : (symtabCtxOf m).pending ≠ 0 := by omega
  unfold gum_elf_module_enumerate_dynamic_symbols
  simp [hne]

/-- Witness for C4 at a concrete image whose dynamic entries carry DT_SYMTAB
only (DT_STRTAB absent, no duplicates). -/
theorem dynamic_symbols_missing_param_empty_witness :
    gum_elf_module_enumerate_dynamic_symbols symtabOnlyImg
        (fun (n : Nat) _ => (n + 1, true)) 0 = (0, []) :=
  dynamic_symbols_missing_param_empty symtabOnlyImg
    (fun (n : Nat) _ => (n + 1, true)) 0
    ⟨DT_STRTAB, by decide, by decide⟩ (by decide)

/-- C5: for each enumeration entry point (dynamic entries, dynamic symbols,
section symbols): if the callback signals stop on the first record, exactly
that one record is delivered regardless of table size; moreover, for every
callback, the delivered records form an initial segment of the entry point's
record list, and the whole run is already determined by that initial segment
of the table (records past the stop point are never visited or
materialized). -/
theorem enumeration_stop_semantics {σ₁ σ₂ σ₃ : Type} (m : GumElfModule)
    (f₁ : σ₁ → GumElfDynamicEntryDetails → σ₁ × Bool) (s₁ : σ₁)
    (f₂ : σ₂ → GumElfSymbolDetails → σ₂ × Bool) (s₂ : σ₂)
    (f₃ : σ₃ → GumElfSymbolDetails → σ₃ × Bool) (s₃ : σ₃)
    (e₁ : GumElfDynamicEntryDetails) (es₁ : List GumElfDynamicEntryDetails)
    (e₂ : GumElfSymbolDetails) (es₂ : List GumElfSymbolDetails)
    (e₃ : GumElfSymbolDetails) (es₃ : List GumElfSymbolDetails)
    (hl₁ : dynEntryList m = e₁ :: es₁) (hs₁ : (f₁ s₁ e₁).2 = false)
    (hl₂ : dynSymRecords m = e₂ :: es₂) (hs₂ : (f₂ s₂ e₂).2 = false)
    (hl₃ : allSymRecords m = e₃ :: es₃) (hs₃ : (f₃ s₃ e₃).2 = false) :
    (gum_elf_module_enumerate_dynamic_entries m f₁ s₁).2 = [e₁]
    ∧ (gum_elf_module_enumerate_dynamic_symbols m f₂ s₂).2 = [e₂]
    ∧ (gum_elf_module_enumerate_symbols m f₃ s₃).2 = [e₃]
    ∧ (∀ {τ : Type} (f : τ → GumElfDynamicEntryDetails → τ × Bool) (t : τ),
        ∃ rest, dynEntryList m
          = (gum_elf_module_enumerate_dynamic_entries m f t).2 ++ rest)
    ∧ (∀ {τ : Type} (f : τ → GumElfSymbolDetails → τ × Bool) (t : τ),
        ∃ rest, dynSymRecords m
          = (gum_elf_module_enumerate_dynamic_symbols m f t).2 ++ rest)
    ∧ (∀ {τ : Type} (f : τ → GumElfSymbolDetails → τ × Bool) (t : τ),
        ∃ rest, allSymRecords m
          = (gum_elf_module_enumerate_symbols m f t).2 ++ rest)
    ∧ (∀ {τ : Type} (f : τ → GumElfDynamicEntryDetails → τ × Bool) (t : τ),
        gum_elf_module_enumerate_dynamic_entries m f t
          = runEnum f t ((dynEntryList m).take
              (gum_elf_module_enumerate_dynamic_entries m f t).2.length))
    ∧ (∀ {τ : Type} (f : τ → GumElfSymbolDetails → τ × Bool) (t : τ),
        gum_elf_module_enumerate_dynamic_symbols m f t
          = runEnum f t ((dynSymRecords m).take
              (gum_elf_module_enumerate_dynamic_symbols m f t).2.length))
    ∧ (∀ {τ : Type} (f : τ → GumElfSymbolDetails → τ × Bool) (t : τ),
        gum_elf_module_enumerate_symbols m f t
          = runEnum f t ((allSymRecords m).take
              (gum_elf_module_enumerate_symbols m f t).2.length)) := by
  refine ⟨?_, ?_, ?_, ?_, ?_, ?_, ?_, ?_, ?_⟩
  · rw [enumerate_dynamic_entries_eq_runEnum, hl₁, runEnum_cons_stop _ _ _ _ hs₁]
  · rw [enumerate_dynamic_symbols_eq_runEnum, hl₂, runEnum_cons_stop _ _ _ _ hs₂]
  · rw [enumerate_symbols_eq_runEnum, hl₃, runEnum_cons_stop _ _ _ _ hs₃]
  · intro τ f t
    rw [enumerate_dynamic_entries_eq_runEnum]
    exact runEnum_initSeg f t (dynEntryList m)
  · intro τ f t
    rw [enumerate_dynamic_symbols_eq_runEnum]
    exact runEnum_initSeg f t (dynSymRecords m)
  · intro τ f t
    rw [enumerate_symbols_eq_runEnum]
    exact runEnum_initSeg f t (allSymRecords m)
  · intro τ f t
    rw [enumerate_dynamic_entries_eq_runEnum]
    exact runEnum_take f t (dynEntryList m)
  · intro τ f t
    rw [enumerate_dynamic_symbols_eq_runEnum]
    exact runEnum_take f t (dynSymRecords m)
  · intro τ f t
    rw [enumerate_symbols_eq_runEnum]
    exact runEnum_take f t (allSymRecords m)

/-- Witness for C5 at a concrete image whose dynamic-entry table has 4
entries, whose dynamic symbol table has 2 symbols past index 0, and whose
SHT_SYMTAB section has 2 symbols: an always-stop callback receives exactly
the first record of each. -/
theorem enumeration_stop_semantics_witness :
    (gum_elf_module_enumerate_dynamic_entries fullImg
        (fun (u : Unit) _ => (u, false)) ()).2 = [{ type := DT_SYMTAB, value := 0x2000 }]
    ∧ (gum_elf_module_enumerate_dynamic_symbols fullImg
        (fun (u : Unit) _ => (u, false)) ()).2
        = [{ name := "alpha", address := 0x100, type := STT_FUNC, bind := STB_GLOBAL
           , section_header_index := 5 }]
    ∧ (gum_elf_module_enumerate_symbols fullImg
        (fun (u : Unit) _ => (u, false)) ()).2
        = [{ name := "", address := 0, type := 0, bind := 0, section_header_index := 0 }] := by
  have h := enumeration_stop_semantics fullImg
    (fun (u : Unit) _ => (u, false)) ()
    (fun (u : Unit) _ => (u, false)) ()
    (fun (u : Unit) _ => (u, false)) ()
    { type := DT_SYMTAB, value := 0x2000 }
    [ { type := DT_SYMENT, value := 24 }, { type := DT_HASH, value := 0x3000 }
    , { type := DT_STRTAB, value := 0x4000 } ]
    { name := "alpha", address := 0x100, type := STT_FUNC, bind := STB_GLOBAL
    , section_header_index := 5 }
    [ { name := "beta", address := 0x200, type := STT_OBJECT, bind := STB_GLOBAL
      , section_header_index := 0 } ]
    { name := "", address := 0, type := 0, bind := 0, section_header_index := 0 }
    [ { name := "gamma", address := 0x300, type := STT_OBJECT, bind := STB_WEAK
      , section_header_index := 1 } ]
    (by decide) rfl (by decide) rfl (by decide) rfl
  exact ⟨h.1, h.2.1, h.2.2.1⟩

/-- C6: export enumeration delivers a dynamic-table symbol iff its defining
section index is not SHN_UNDEF, its type is STT_FUNC or STT_OBJECT, and its
binding is STB_GLOBAL or STB_WEAK: under a never-stopping callback the
delivered exports are exactly the classified symbols in order, the
classification test is precisely that predicate, and under any callback only
classified symbols are ever delivered (so local symbols never are). -/
theorem export_classification {σ : Type} (m : GumElfModule)
    (g : σ → GumExportDetails → σ × Bool) (s : σ)
    (hg : ∀ a e, (g a e).2 = true) :
    (gum_elf_module_enumerate_exports m g s).2
        = ((dynSymRecords m).filter exportPred).map mkExportDetails
    ∧ (∀ d : GumElfSymbolDetails, exportPred d = true ↔
        (d.section_header_index ≠ SHN_UNDEF
          ∧ (d.type = STT_FUNC ∨ d.type = STT_OBJECT)
          ∧ (d.bind = STB_GLOBAL ∨ d.bind = STB_WEAK)))
    ∧ (∀ {τ : Type} (g₂ : τ → GumExportDetails → τ × Bool) (t : τ),
        ∃ rest, ((dynSymRecords m).filter exportPred).map mkExportDetails
          = (gum_elf_module_enumerate_exports m g₂ t).2 ++ rest) := by
  refine ⟨?_, ?_, ?_⟩
  · unfold gum_elf_module_enumerate_exports gum_emit_elf_export
    rw [enumerate_dynamic_symbols_eq_runEnum]
    simpa using
      runEnum_emitFiltered_continue exportPred mkExportDetails g hg (dynSymRecords m) s []
  · intro d
    simp [exportPred, and_assoc]
  · intro τ g₂ t
    unfold gum_elf_module_enumerate_exports gum_emit_elf_export
    rw [enumerate_dynamic_symbols_eq_runEnum]
    obtain ⟨t', u, h1, h2⟩ :=
      runEnum_emitFiltered_initSeg exportPred mkExportDetails g₂ (dynSymRecords m) t []
    refine ⟨u, ?_⟩
    rw [h2, h1]
    simp

/-- Witness for C6 at a concrete image whose dynamic symbol table holds one
global function defined in section 5 (exported) and one undefined object
(not exported). -/
theorem export_classification_witness :
    (gum_elf_module_enumerate_exports fullImg (fun (n : Nat) _ => (n + 1, true)) 0).2
      = [{ type := GumExportType.GUM_EXPORT_FUNCTION, name := "alpha", address := 0x100 }] := by
  have h := (export_classification fullImg (fun (n : Nat) _ => (n + 1, true)) 0
    (fun _ _ => rfl)).1
  exact h.trans (by decide)

/-- C7: import enumeration delivers a dynamic-table symbol iff its defining
section index is SHN_UNDEF and its type is STT_FUNC or STT_OBJECT: under a
never-stopping callback the delivered imports are exactly the classified
symbols in order, the classification test is precisely that predicate, only
classified symbols are ever delivered, and every delivered import record has
no originating module and address zero. -/
theorem import_classification {σ : Type} (m : GumElfModule)
    (g : σ → GumImportDetails → σ × Bool) (s : σ)
    (hg : ∀ a e, (g a e).2 = true) :
    (gum_elf_module_enumerate_imports m g s).2
        = ((dynSymRecords m).filter importPred).map mkImportDetails
    ∧ (∀ d : GumElfSymbolDetails, importPred d = true ↔
        (d.section_header_index = SHN_UNDEF
          ∧ (d.type = STT_FUNC ∨ d.type = STT_OBJECT)))
    ∧ (∀ {τ : Type} (g₂ : τ → GumImportDetails → τ × Bool) (t : τ),
        ∃ rest, ((dynSymRecords m).filter importPred).map mkImportDetails
          = (gum_elf_module_enumerate_imports m g₂ t).2 ++ rest)
    ∧ (∀ {τ : Type} (g₂ : τ → GumImportDetails → τ × Bool) (t : τ),
        ∀ r ∈ (gum_elf_module_enumerate_imports m g₂ t).2,
          r.module = none ∧ r.address = 0) := by
  have hseg : ∀ {τ : Type} (g₂ : τ → GumImportDetails → τ × Bool) (t : τ),
      ∃ rest, ((dynSymRecords m).filter importPred).map mkImportDetails
        = (gum_elf_module_enumerate_imports m g₂ t).2 ++ rest := by
    intro τ g₂ t
    unfold gum_elf_module_enumerate_imports gum_emit_elf_import
    rw [enumerate_dynamic_symbols_eq_runEnum]
    obtain ⟨t', u, h1, h2⟩ :=
      runEnum_emitFiltered_initSeg importPred mkImportDetails g₂ (dynSymRecords m) t []
    refine ⟨u, ?_⟩
    rw [h2, h1]
    simp
  refine ⟨?_, ?_, hseg, ?_⟩
  · unfold gum_elf_module_enumerate_imports gum_emit_elf_import
    rw [enumerate_dynamic_symbols_eq_runEnum]
    simpa using
      runEnum_emitFiltered_continue importPred mkImportDetails g hg (dynSymRecords m) s []
  · intro d
    simp [importPred]
  · intro τ g₂ t r hr
    obtain ⟨rest, hrest⟩ := hseg g₂ t
    have hmem : r ∈ ((dynSymRecords m).filter importPred).map mkImportDetails := by
      rw [hrest]
      exact List.mem_append_left rest hr
    obtain ⟨d, _, hd⟩ := List.mem_map.mp hmem
    rw [← hd]
    simp [mkImportDetails]

/-- Witness for C7 at a concrete image: only the undefined object symbol is
delivered, with no module and address zero. -/
theorem import_classification_witness :
    (gum_elf_module_enumerate_imports fullImg (fun (n : Nat) _ => (n + 1, true)) 0).2
      = [{ type := GumExportType.GUM_EXPORT_VARIABLE, name := "beta"
         , module := none, address := 0 }] := by
  have h := (import_classification fullImg (fun (n : Nat) _ => (n + 1, true)) 0
    (fun _ _ => rfl)).1
  exact h.trans (by decide)

/-- C8 (counterexample): in `nullStrtabImg` a DT_STRTAB entry exists (value
0, and the image is loaded at its preferred base, so the translated pointer
is NULL) and a DT_NEEDED entry exists whose claim-prescribed record list is
nonempty — yet dependency enumeration delivers nothing, so the claim's
"otherwise a second pass emits each DT_NEEDED record" fails as stated. -/
theorem dependencies_null_strtab_cex :
    (dynEntryList nullStrtabImg).find? (fun d => d.type == DT_STRTAB)
        = some { type := DT_STRTAB, value := 0 }
    ∧ ((dynEntryList nullStrtabImg).filter (fun d => d.type == DT_NEEDED)).map
        (fun d => GumElfDependencyDetails.mk (nullStrtabImg.readStr (addr64
          (gum_elf_module_resolve_virtual_address nullStrtabImg 0 + d.value))))
        = [{ name := "libx.so" }]
    ∧ (gum_elf_module_enumerate_dependencies nullStrtabImg
        (fun (n : Nat) _ => (n + 1, true)) 0).2 = [] := by
  refine ⟨by decide, by decide, by decide⟩

/-- C8 (amended): dependency enumeration first captures the translated
DT_STRTAB pointer from the dynamic entries (the first DT_STRTAB entry wins,
since that pass stops as soon as it is found).  If no DT_STRTAB entry exists,
zero dependencies are produced; likewise, if the captured translated pointer
is NULL (address zero) the code treats the string table as missing and
produces zero dependencies; otherwise a second pass over the dynamic entries
emits, for each DT_NEEDED entry in on-disk order, a dependency record whose
name is the string at that entry's value offset into the captured string
table. -/
theorem dependencies_enumeration {σ : Type} (m : GumElfModule)
    (g : σ → GumElfDependencyDetails → σ × Bool) (s : σ) :
    ((∀ d ∈ dynEntryList m, d.type ≠ DT_STRTAB) →
        gum_elf_module_enumerate_dependencies m g s = (s, []))
    ∧ (∀ d₀, (dynEntryList m).find? (fun d => d.type == DT_STRTAB) = some d₀ →
        gum_elf_module_resolve_virtual_address m d₀.value = 0 →
        gum_elf_module_enumerate_dependencies m g s = (s, []))
    ∧ (∀ d₀, (dynEntryList m).find? (fun d => d.type == DT_STRTAB) = some d₀ →
        gum_elf_module_resolve_virtual_address m d₀.value ≠ 0 →
        (∀ a r, (g a r).2 = true) →
        (gum_elf_module_enumerate_dependencies m g s).2
          = ((dynEntryList m).filter (fun d => d.type == DT_NEEDED)).map
              (fun d => { name := m.readStr (addr64
                  (gum_elf_module_resolve_virtual_address m d₀.value + d.value)) })) := by
  refine ⟨?_, ?_, ?_⟩
  · intro hnone
    have hfind : (dynEntryList m).find? (fun d => d.type == DT_STRTAB) = none := by
      rw [List.find?_eq_none]
      intro d hd
      simpa using hnone d hd
    have hcap : (gum_elf_module_enumerate_dynamic_entries m (gum_store_strtab m) 0).1 = 0 := by
      rw [enumerate_dynamic_entries_eq_runEnum, runEnum_store_strtab, hfind]
    simp only [gum_elf_module_enumerate_dependencies]
    rw [hcap]
    simp
  · intro d₀ hfind hzero
    have hcap : (gum_elf_module_enumerate_dynamic_entries m (gum_store_strtab m) 0).1 = 0 := by
      rw [enumerate_dynamic_entries_eq_runEnum, runEnum_store_strtab, hfind]
      exact hzero
    simp only [gum_elf_module_enumerate_dependencies]
    rw [hcap]
    simp
  · intro d₀ hfind hnz hg
    have hcap : (gum_elf_module_enumerate_dynamic_entries m (gum_store_strtab m) 0).1
        = gum_elf_module_resolve_virtual_address m d₀.value := by
      rw [enumerate_dynamic_entries_eq_runEnum, runEnum_store_strtab, hfind]
    simp only [gum_elf_module_enumerate_dependencies]
    rw [hcap, if_neg hnz]
    rw [enumerate_dynamic_entries_eq_runEnum]
    unfold gum_emit_each_needed
    simpa using runEnum_emitFiltered_continue (fun d => d.type == DT_NEEDED)
      (fun d => { name := m.readStr (addr64
        (gum_elf_module_resolve_virtual_address m d₀.value + d.value)) })
      g hg (dynEntryList m) s []

/-- Witness for C8 at the spec's scenario image: dynamic entries
[NEEDED, NEEDED, STRTAB, NULL] yield exactly ["libc.so.6", "libm.so.6"]
in that order. -/
theorem dependencies_enumeration_witness :
    (gum_elf_module_enumerate_dependencies depsImg
        (fun (n : Nat) _ => (n + 1, true)) 0).2
      = [{ name := "libc.so.6" }, { name := "libm.so.6" }] := by
  have h := (dependencies_enumeration depsImg (fun (n : Nat) _ => (n + 1, true)) 0).2.2
    { type := DT_STRTAB, value := 0x2000 } (by decide) (by decide) (fun _ _ => rfl)
  exact h.trans (by decide)
